import Mathlib

/-!
Common.h of the VirnectTrack iOS plugin.

A verification development for
`TRACK_VIRNECT/VirnectTrack/Runtime/Plugins/iOS/Common.h`: the helper
`MakeStringCopy` over an explicit block-structured heap, and the plain data
records `TrackerResult`, `Vec3`, `Dimensions`, `Calibration`, `TargetInfo`.
-/

namespace HoloAssist

/-! ## C memory: bytes, pointers, heap -/

/-- One `char`: a value in 0..255. -/
abbrev Byte := Fin 256

/-- One byte of storage: `none` is an indeterminate (never written) byte,
as in a block fresh from `malloc`. -/
abbrev Cell := Option Byte

/-- A non-null `char*`: an allocated block and a byte offset into it. -/
structure Ptr where
  block : Nat
  off : Nat
deriving DecidableEq, Repr

/-- A `char*` value; `none` is `NULL`. -/
abbrev CharPtr := Option Ptr

/-- The heap: the blocks handed out so far (a block is named by its position)
and the number of bytes the allocator is still able to hand out. -/
structure Heap where
  blocks : List (List Cell)
  avail : Nat
deriving DecidableEq, Repr

/-- The ways a call can fail to return: each is undefined behaviour in C and
ends the process on the target platform. -/
inductive Fault where
  | nullDeref
  | outOfBounds
  | uninitRead
  | overlap
deriving DecidableEq, Repr

/-- The outcome of running a piece of C code: it returns a value, or the
process is brought down by a fault. A crash is not a value handed to the
caller. -/
inductive Outcome (α : Type) where
  | returns (a : α)
  | crash (f : Fault)
deriving DecidableEq, Repr

/-- Sequencing: a crash ends the computation. -/
def Outcome.andThen {α β : Type} (x : Outcome α) (k : α → Outcome β) : Outcome β :=
  match x with
  | Outcome.returns a => k a
  | Outcome.crash f => Outcome.crash f

/-- Whether the call came back to its caller. -/
def Outcome.returned {α : Type} : Outcome α → Bool
  | Outcome.returns _ => true
  | Outcome.crash _ => false

/-- The storage visible from a pointer: the cells of its block from its offset
on (nothing when the block does not exist or the offset is past the end). -/
def Heap.cellsAt (h : Heap) (p : Ptr) : List Cell :=
  match h.blocks[p.block]? with
  | some blk => blk.drop p.off
  | none => []

/-- Read a null-terminated string from a run of cells: the bytes before the
first zero byte. Running off the end of the block or into an indeterminate
byte is a fault. -/
def scanString : List Cell → Outcome (List Byte)
  | [] => Outcome.crash Fault.outOfBounds
  | none :: _ => Outcome.crash Fault.uninitRead
  | some b :: rest =>
    if b = 0 then Outcome.returns []
    else (scanString rest).andThen (fun bs => Outcome.returns (b :: bs))

/-- The string a `char*` points to. -/
def Heap.readString (h : Heap) (p : CharPtr) : Outcome (List Byte) :=
  match p with
  | none => Outcome.crash Fault.nullDeref
  | some q => scanString (h.cellsAt q)

/-! ## The C library functions used by `MakeStringCopy` -/

/-- The function `strlen` of `<string.h>`: the number of bytes before the
terminator. -/
def strlen (h : Heap) (s : CharPtr) : Outcome Nat :=
  (h.readString s).andThen (fun bs => Outcome.returns bs.length)

/-- The function `malloc` of `<stdlib.h>`: a partial operation. When the
allocator can serve `n` bytes it hands out a fresh block of `n` indeterminate
bytes; otherwise it returns `NULL` and leaves the heap as it was. -/
def malloc (h : Heap) (n : Nat) : CharPtr × Heap :=
  if n ≤ h.avail then
    (some ⟨h.blocks.length, 0⟩,
      { blocks := h.blocks ++ [List.replicate n none], avail := h.avail - n })
  else (none, h)

/-- Overwrite the cells of a block from offset `off` with `bytes`; `none`
when they do not fit. -/
def writeCells (blk : List Cell) (off : Nat) (bytes : List Byte) : Option (List Cell) :=
  if off + bytes.length ≤ blk.length then
    some (blk.take off ++ bytes.map some ++ blk.drop (off + bytes.length))
  else none

/-- Write a run of bytes through a pointer. -/
def Heap.writeBytes (h : Heap) (p : Ptr) (bytes : List Byte) : Outcome Heap :=
  match h.blocks[p.block]? with
  | none => Outcome.crash Fault.outOfBounds
  | some blk =>
    match writeCells blk p.off bytes with
    | none => Outcome.crash Fault.outOfBounds
    | some blk1 => Outcome.returns { h with blocks := h.blocks.set p.block blk1 }

/-- The assignment `*p = b` through a `char*`. -/
def Heap.store (h : Heap) (p : CharPtr) (b : Byte) : Outcome Heap :=
  match p with
  | none => Outcome.crash Fault.nullDeref
  | some q => h.writeBytes q [b]

/-- The function `strcpy` of `<string.h>`: copies the source string, its
terminator included, to the destination. A null pointer on either side, a
destination too small, and overlapping source and destination are faults. -/
def strcpy (h : Heap) (dst src : CharPtr) : Outcome Heap :=
  match dst, src with
  | none, _ => Outcome.crash Fault.nullDeref
  | some _, none => Outcome.crash Fault.nullDeref
  | some d, some s =>
    (h.readString (some s)).andThen (fun bs =>
      if d.block = s.block ∧ d.off < s.off + (bs.length + 1) ∧ s.off < d.off + (bs.length + 1) then
        Outcome.crash Fault.overlap
      else h.writeBytes d (bs ++ [0]))

/-! ## `MakeStringCopy` (Common.h, lines 9-16) -/

/-- The helper `MakeStringCopy`:
```
if (string == NULL) return NULL;
char* res = (char*) malloc (strlen(string) + 1);
strcpy (res, string);
return res;
```
The sum `strlen(string) + 1` cannot wrap in `size_t`: the string and its
terminator occupy that many bytes of one existing object. -/
def MakeStringCopy (h : Heap) (string : CharPtr) : Outcome (CharPtr × Heap) :=
  match string with
  | none => Outcome.returns (none, h)
  | some _ =>
    (strlen h string).andThen (fun n =>
      let (res, h1) := malloc h (n + 1)
      (strcpy h1 res string).andThen (fun h2 =>
        Outcome.returns (res, h2)))

/-! ## Scalar types of the records -/

/-- A `double`: an IEEE-754 binary64 value, given by its sign bit, its 11-bit
biased exponent and its 52-bit fraction. The header only stores doubles and
never computes with them. -/
structure Double where
  sign : Bool
  exponent : Fin 2048
  fraction : Fin 4503599627370496
deriving DecidableEq

/-- The literals `0` and `0.0` as a `double`: positive zero. -/
def Double.zero : Double := ⟨false, 0, 0⟩

/-- The literal `1.0` as a `double`. -/
def Double.one : Double := ⟨false, 1023, 0⟩

/-- The real number a `double` stands for; `none` for infinities and NaN. -/
def Double.toRat (d : Double) : Option ℚ :=
  if d.exponent.val = 2047 then none
  else
    let m : ℚ := if d.exponent.val = 0 then (d.fraction.val : ℚ) else 4503599627370496 + (d.fraction.val : ℚ)
    let e : ℤ := (if d.exponent.val = 0 then 1 else (d.exponent.val : ℤ)) - 1075
    some ((if d.sign then -1 else 1) * m * (2 : ℚ) ^ e)

/-- A `uint16_t`: a value in 0..65535. -/
abbrev UInt16T := Fin 65536

/-- Conversion of an integer value to `uint16_t`, as on assignment: the value
modulo 2^16. -/
def UInt16T.ofNat (n : Nat) : UInt16T := ⟨n % 65536, Nat.mod_lt n (by decide)⟩

/-- An `int32_t`: a value in -2^31..2^31-1. -/
abbrev Int32T := { i : Int // -2147483648 ≤ i ∧ i < 2147483648 }

/-- A C array `T name[n]`: exactly `n` elements, stored inline. -/
structure CArray (α : Type) (n : Nat) where
  elems : List α
  size_eq : elems.length = n

/-- The element at position `i` of a C array, when `i` is a position of it. -/
def CArray.get? {α : Type} {n : Nat} (a : CArray α n) (i : Nat) : Option α :=
  a.elems[i]?

/-- Modelled from the spec: the enumeration `TargetType` is declared in
`Track/Common.h` of the tracking SDK, which is not among the sources. Only its
enumerator `UNDEFINED` is named by this header; every other enumerator is
kept by a number. -/
inductive TargetType where
  | UNDEFINED
  | other (tag : Nat)
deriving DecidableEq

/-- Modelled from the spec: the enumeration `TargetStatus` is declared in
`Track/Common.h` of the tracking SDK, which is not among the sources. Only its
enumerator `NOT_TRACKED` is named by this header; every other enumerator is
kept by a number. -/
inductive TargetStatus where
  | NOT_TRACKED
  | other (tag : Nat)
deriving DecidableEq

/-! ## The records (Common.h, lines 21-95) -/

/-- The record `struct TrackerResult`. -/
structure TrackerResult where
  mTargetName : CharPtr
  mFrameID : UInt16T
  mTranslation : CArray Double 3
  mRotationMatrix : CArray Double 9
  mType : TargetType
  mStatus : TargetStatus

/-- A default-constructed `TrackerResult`: every member has a default member
initializer. -/
def TrackerResult.defaultCtor : TrackerResult :=
  { mTargetName := none
    mFrameID := 0
    mTranslation := ⟨[Double.zero, Double.zero, Double.zero], rfl⟩
    mRotationMatrix :=
      ⟨[Double.one, Double.zero, Double.zero,
        Double.zero, Double.one, Double.zero,
        Double.zero, Double.zero, Double.one], rfl⟩
    mType := TargetType.UNDEFINED
    mStatus := TargetStatus.NOT_TRACKED }

/-- The assignment `r.mFrameID = n` of an integer value to the 16-bit member. -/
def TrackerResult.setFrameID (r : TrackerResult) (n : Nat) : TrackerResult :=
  { r with mFrameID := UInt16T.ofNat n }

/-- The record `struct Vec3`. -/
structure Vec3 where
  X : Double
  Y : Double
  Z : Double
deriving DecidableEq

/-- The constructor `Vec3(double x, double y, double z)`: `X = x; Y = y; Z = z;`. -/
def Vec3.ctor (x y z : Double) : Vec3 :=
  { X := x, Y := y, Z := z }

/-- The record `struct Dimensions`. -/
structure Dimensions where
  mMin : Vec3
  mMax : Vec3
deriving DecidableEq

/-- The constructor `Dimensions(Vec3 min, Vec3 max)`: the members are first set
by their default member initializers `Vec3(0.0, 0.0, 0.0)`, then the body runs
`mMin = min; mMax = max;`. -/
def Dimensions.ctor (min max : Vec3) : Dimensions :=
  let self0 : Dimensions :=
    { mMin := Vec3.ctor Double.zero Double.zero Double.zero
      mMax := Vec3.ctor Double.zero Double.zero Double.zero }
  let self1 : Dimensions := { self0 with mMin := min }
  { self1 with mMax := max }

/-- The record `struct Calibration`: four fixed-size arrays, no initializers. -/
structure Calibration where
  mResolution : CArray Int32T 2
  mFocalLength : CArray Double 2
  mPrincipalPoint : CArray Double 2
  mDistortion : CArray Double 5

/-- The record `struct TargetInfo`. `BOOL` is the two-valued flag type. -/
structure TargetInfo where
  mTargetName : CharPtr
  mDimensions : Dimensions
  mType : TargetType
  mIgnore : Bool
  mStatic : Bool

/-- Aggregate initialization `TargetInfo{name, dimensions, type}` (the struct
declares no constructor, so from C++14 on it is an aggregate): the first three
members are given, the two flags come from their default member initializers
`= false`. -/
def TargetInfo.aggregateInit (name : CharPtr) (dimensions : Dimensions) (type : TargetType) :
    TargetInfo :=
  { mTargetName := name
    mDimensions := dimensions
    mType := type
    mIgnore := false
    mStatic := false }

/-! ## Which records have a zero-argument constructor

The declarations of the header, and the language rule that decides whether a
struct can be constructed with no arguments. -/

/-- The type of a member, as far as default construction is concerned. -/
inductive CType where
  | scalar (name : String)
  | array (elem : CType) (n : Nat)
  | record (name : String)

/-- A non-static data member and whether it has a default member initializer. -/
structure Member where
  name : String
  type : CType
  hasInitializer : Bool

/-- A struct declaration: its members and the parameter counts of the
constructors it declares (no constructor of the header has default arguments). -/
structure StructDecl where
  name : String
  members : List Member
  ctorArities : List Nat

/-- Whether an object of a type can be default-initialized, given which of the
earlier structs have a default constructor. -/
def CType.defaultInit (known : List (String × Bool)) : CType → Bool
  | CType.scalar _ => true
  | CType.array elem _ => CType.defaultInit known elem
  | CType.record name => (known.lookup name).getD false

/-- Whether a struct has a usable default constructor. A struct that declares
constructors has one only if one of them takes no parameters. A struct that
declares none gets an implicit one, which is deleted when a member without
default member initializer has a type that cannot be default-initialized. -/
def StructDecl.hasDefaultCtor (known : List (String × Bool)) (d : StructDecl) : Bool :=
  if d.ctorArities.isEmpty then
    d.members.all (fun m => m.hasInitializer || m.type.defaultInit known)
  else d.ctorArities.contains 0

/-- Go through the declarations in order (a member's struct type is declared
before its use) and record for each whether it has a default constructor. -/
def analyseDecls (known : List (String × Bool)) : List StructDecl → List (String × Bool)
  | [] => known
  | d :: ds => analyseDecls (known ++ [(d.name, d.hasDefaultCtor known)]) ds

/-- The five struct declarations of Common.h, in source order. -/
def commonHeader : List StructDecl :=
  [ { name := "TrackerResult"
      members :=
        [ ⟨"mTargetName", CType.scalar "char*", true⟩,
          ⟨"mFrameID", CType.scalar "uint16_t", true⟩,
          ⟨"mTranslation", CType.array (CType.scalar "double") 3, true⟩,
          ⟨"mRotationMatrix", CType.array (CType.scalar "double") 9, true⟩,
          ⟨"mType", CType.scalar "TargetType", true⟩,
          ⟨"mStatus", CType.scalar "TargetStatus", true⟩ ]
      ctorArities := [] },
    { name := "Vec3"
      members :=
        [ ⟨"X", CType.scalar "double", false⟩,
          ⟨"Y", CType.scalar "double", false⟩,
          ⟨"Z", CType.scalar "double", false⟩ ]
      ctorArities := [3] },
    { name := "Dimensions"
      members :=
        [ ⟨"mMin", CType.record "Vec3", true⟩,
          ⟨"mMax", CType.record "Vec3", true⟩ ]
      ctorArities := [2] },
    { name := "Calibration"
      members :=
        [ ⟨"mResolution", CType.array (CType.scalar "int32_t") 2, false⟩,
          ⟨"mFocalLength", CType.array (CType.scalar "double") 2, false⟩,
          ⟨"mPrincipalPoint", CType.array (CType.scalar "double") 2, false⟩,
          ⟨"mDistortion", CType.array (CType.scalar "double") 5, false⟩ ]
      ctorArities := [] },
    { name := "TargetInfo"
      members :=
        [ ⟨"mTargetName", CType.scalar "const char*", false⟩,
          ⟨"mDimensions", CType.record "Dimensions", false⟩,
          ⟨"mType", CType.scalar "TargetType", false⟩,
          ⟨"mIgnore", CType.scalar "BOOL", true⟩,
          ⟨"mStatic", CType.scalar "BOOL", true⟩ ]
      ctorArities := [] } ]

/-- Whether the struct of the given name in Common.h can be constructed with no
arguments. -/
def defaultConstructible (name : String) : Bool :=
  ((analyseDecls [] commonHeader).lookup name).getD false

/-! ## Concrete inputs -/

/-- A heap with one block that holds the string "hi", its terminator and one
further byte, and an allocator with `avail` bytes left. -/
def sampleHeap (avail : Nat) : Heap :=
  { blocks := [[some 104, some 105, some 0, some 7]], avail := avail }

/-- A pointer to the start of the block of `sampleHeap`. -/
def samplePtr : Ptr := { block := 0, off := 0 }

/-- The bytes of the string "hi". -/
def sampleString : List Byte := [104, 105]

theorem scanString_terminated (s : List Byte) (rest : List Cell) (h0 : (0 : Byte) ∉ s) :
    scanString (s.map some ++ some 0 :: rest) = Outcome.returns s := by
  induction s with
  | nil => simp [scanString]
  | cons b bs ih =>
    have hb : b ≠ 0 := fun e => h0 (by simp [e])
    have hbs : (0 : Byte) ∉ bs := fun e => h0 (List.mem_cons_of_mem _ e)
    simp [scanString, hb, ih hbs, Outcome.andThen]

theorem cellsAt_block_lt (h : Heap) (p : Ptr) (c : Cell) (cs : List Cell)
    (hc : h.cellsAt p = c :: cs) : p.block < h.blocks.length := by
  by_contra hlt
  have hnone : h.blocks[p.block]? = none := by
    rw [List.getElem?_eq_none_iff]; omega
  simp only [Heap.cellsAt, hnone] at hc
  cases hc

theorem cellsAt_grow (h : Heap) (p : Ptr) (blk : List Cell) (n : Nat)
    (hlt : p.block < h.blocks.length) :
    Heap.cellsAt { blocks := h.blocks ++ [blk], avail := n } p = h.cellsAt p := by
  simp only [Heap.cellsAt]
  rw [List.getElem?_append_left hlt]

theorem cellsAt_fresh (h : Heap) (blk : List Cell) (n : Nat) :
    Heap.cellsAt { blocks := h.blocks ++ [blk], avail := n } ⟨h.blocks.length, 0⟩ = blk := by
  simp [Heap.cellsAt]

theorem writeCells_fresh (bytes : List Byte) :
    writeCells (List.replicate bytes.length none) 0 bytes = some (bytes.map some) := by
  simp [writeCells]

/-- The complete behaviour of `MakeStringCopy` on a pointer to a
null-terminated string: a fresh block holding the string and its terminator
when the allocation succeeds, a null-pointer write inside `strcpy` otherwise. -/
theorem MakeStringCopy_eq (h : Heap) (p : Ptr) (s : List Byte) (rest : List Cell)
    (hc : h.cellsAt p = s.map some ++ some 0 :: rest) (h0 : (0 : Byte) ∉ s) :
    MakeStringCopy h (some p) =
      if s.length + 1 ≤ h.avail then
        Outcome.returns (some ⟨h.blocks.length, 0⟩,
          { blocks := h.blocks ++ [s.map some ++ [some 0]], avail := h.avail - (s.length + 1) })
      else Outcome.crash Fault.nullDeref := by
  have hlt : p.block < h.blocks.length := by
    cases s with
    | nil => exact cellsAt_block_lt h p _ _ hc
    | cons b bs => exact cellsAt_block_lt h p _ _ hc
  have hscan : scanString (h.cellsAt p) = Outcome.returns s := by
    rw [hc]; exact scanString_terminated s rest h0
  by_cases ha : s.length + 1 ≤ h.avail
  · have hne : ¬ (h.blocks.length = p.block) := by omega
    have hw := writeCells_fresh (s ++ [0])
    simp only [List.length_append, List.length_singleton] at hw
    simp [MakeStringCopy, strlen, Heap.readString, hscan, Outcome.andThen, malloc, ha, strcpy,
      cellsAt_grow h p _ _ hlt, hne, Heap.writeBytes, hw]
  · simp [MakeStringCopy, strlen, Heap.readString, hscan, Outcome.andThen, malloc, ha, strcpy]

/-- C1, amended: for every pointer to a null-terminated string `s` (bytes
without a zero, then a terminator), when the allocation of `strlen(s) + 1`
bytes succeeds `MakeStringCopy` returns a pointer to the start of a block of
exactly `strlen(s) + 1` bytes, whose bytes are those of `s` one for one
followed by the terminating zero in the last position, and whose string length
is that of the input. -/
theorem MakeStringCopy_exact_copy (h : Heap) (p : Ptr) (s : List Byte) (rest : List Cell)
    (hc : h.cellsAt p = s.map some ++ some 0 :: rest) (h0 : (0 : Byte) ∉ s)
    (halloc : s.length + 1 ≤ h.avail) :
    ∃ r h1, MakeStringCopy h (some p) = Outcome.returns (some r, h1) ∧
      r.off = 0 ∧
      h1.blocks[r.block]? = some (s.map some ++ [some 0]) ∧
      (h1.cellsAt r).length = s.length + 1 ∧
      (∀ i, i < s.length → (h1.cellsAt r)[i]? = (h.cellsAt p)[i]?) ∧
      (h1.cellsAt r)[s.length]? = some (some 0) ∧
      (h1.cellsAt r).getLast? = some (some 0) ∧
      h1.readString (some r) = Outcome.returns s ∧
      h.readString (some p) = Outcome.returns s ∧
      strlen h1 (some r) = strlen h (some p) := by
  have hrun := MakeStringCopy_eq h p s rest hc h0
  rw [if_pos halloc] at hrun
  have hcells := cellsAt_fresh h (s.map some ++ [some 0]) (h.avail - (s.length + 1))
  have hr1 : scanString (s.map some ++ [some 0]) = Outcome.returns s :=
    scanString_terminated s [] h0
  have hr2 : scanString (h.cellsAt p) = Outcome.returns s := by
    rw [hc]; exact scanString_terminated s rest h0
  refine ⟨⟨h.blocks.length, 0⟩, _, hrun, rfl, ?_, ?_, ?_, ?_, ?_, ?_, ?_, ?_⟩
  · simp
  · rw [hcells]; simp
  · intro i hi
    rw [hcells, hc]
    rw [List.getElem?_append_left (by simpa using hi),
      List.getElem?_append_left (by simpa using hi)]
  · rw [hcells]
    rw [List.getElem?_append_right (by simp)]
    simp
  · rw [hcells]; simp
  · simp only [Heap.readString]; rw [hcells]; exact hr1
  · simp only [Heap.readString]; exact hr2
  · simp only [strlen, Heap.readString]; rw [hcells, hr1, hr2]

/-- C1, amended, at `sampleHeap 10`: the hypotheses hold there, and so does the
conclusion. -/
theorem MakeStringCopy_exact_copy_witness :
    (sampleHeap 10).cellsAt samplePtr = sampleString.map some ++ some 0 :: [some 7] ∧
    (0 : Byte) ∉ sampleString ∧
    sampleString.length + 1 ≤ (sampleHeap 10).avail ∧
    ∃ r h1, MakeStringCopy (sampleHeap 10) (some samplePtr) = Outcome.returns (some r, h1) ∧
      r.off = 0 ∧
      h1.blocks[r.block]? = some (sampleString.map some ++ [some 0]) ∧
      (h1.cellsAt r).length = sampleString.length + 1 ∧
      (∀ i, i < sampleString.length →
        (h1.cellsAt r)[i]? = ((sampleHeap 10).cellsAt samplePtr)[i]?) ∧
      (h1.cellsAt r)[sampleString.length]? = some (some 0) ∧
      (h1.cellsAt r).getLast? = some (some 0) ∧
      h1.readString (some r) = Outcome.returns sampleString ∧
      (sampleHeap 10).readString (some samplePtr) = Outcome.returns sampleString ∧
      strlen h1 (some r) = strlen (sampleHeap 10) (some samplePtr) :=
  ⟨by decide, by decide, by decide,
    MakeStringCopy_exact_copy (sampleHeap 10) samplePtr sampleString [some 7]
      (by decide) (by decide) (by decide)⟩

/-- C1 as stated fails: at `sampleHeap 0` the input is a pointer to the
null-terminated string "hi", yet the allocation of its three bytes fails and
the call crashes inside `strcpy` instead of returning a buffer. -/
theorem MakeStringCopy_no_copy_without_memory :
    (sampleHeap 0).cellsAt samplePtr = sampleString.map some ++ some 0 :: [some 7] ∧
    (0 : Byte) ∉ sampleString ∧
    malloc (sampleHeap 0) (sampleString.length + 1) = (none, sampleHeap 0) ∧
    MakeStringCopy (sampleHeap 0) (some samplePtr) = Outcome.crash Fault.nullDeref ∧
    ¬ ∃ r h1, MakeStringCopy (sampleHeap 0) (some samplePtr) = Outcome.returns (r, h1) := by
  have hrun : MakeStringCopy (sampleHeap 0) (some samplePtr) = Outcome.crash Fault.nullDeref := by
    decide
  refine ⟨by decide, by decide, by decide, hrun, ?_⟩
  rintro ⟨r, h1, hret⟩
  rw [hrun] at hret
  cases hret

/-- C2: `MakeStringCopy` of the null pointer returns the null pointer, and the
heap after the call is the heap before it: nothing is allocated. -/
theorem MakeStringCopy_null (h : Heap) :
    MakeStringCopy h none = Outcome.returns (none, h) ∧
    ∀ r h1, MakeStringCopy h none = Outcome.returns (r, h1) →
      r = none ∧ h1 = h ∧ h1.blocks.length = h.blocks.length ∧ h1.avail = h.avail := by
  refine ⟨rfl, ?_⟩
  intro r h1 hrun
  simp only [MakeStringCopy, Outcome.returns.injEq, Prod.mk.injEq] at hrun
  obtain ⟨hr, hh⟩ := hrun
  subst hr; subst hh
  exact ⟨rfl, rfl, rfl, rfl⟩

/-- C6: for every pointer to a null-terminated string, a call of
`MakeStringCopy` that returns (as it does whenever the allocation succeeds)
leaves the bytes of the input, and every block that existed before, as they
were; the result lies in another block than the input, every byte of the
result can be overwritten, and overwriting it leaves the input unchanged. -/
theorem MakeStringCopy_input_unchanged (h : Heap) (p : Ptr) (s : List Byte) (rest : List Cell)
    (hc : h.cellsAt p = s.map some ++ some 0 :: rest) (h0 : (0 : Byte) ∉ s) :
    (s.length + 1 ≤ h.avail → (MakeStringCopy h (some p)).returned = true) ∧
    ∀ r h1, MakeStringCopy h (some p) = Outcome.returns (r, h1) →
      h1.cellsAt p = h.cellsAt p ∧
      (∀ b, b < h.blocks.length → h1.blocks[b]? = h.blocks[b]?) ∧
      ∃ q, r = some q ∧ q.block ≠ p.block ∧
        (∀ i, i < s.length + 1 → ∀ byte : Byte,
          (h1.store (some ⟨q.block, i⟩) byte).returned = true) ∧
        ∀ i (byte : Byte) h2, h1.store (some ⟨q.block, i⟩) byte = Outcome.returns h2 →
          h2.cellsAt p = h.cellsAt p ∧ h2.readString (some p) = h.readString (some p) := by
  have hrun := MakeStringCopy_eq h p s rest hc h0
  have hlt : p.block < h.blocks.length := by
    cases s with
    | nil => exact cellsAt_block_lt h p _ _ hc
    | cons b bs => exact cellsAt_block_lt h p _ _ hc
  refine ⟨fun ha => by rw [hrun, if_pos ha]; rfl, ?_⟩
  intro r h1 hret
  by_cases ha : s.length + 1 ≤ h.avail
  · rw [hrun, if_pos ha] at hret
    simp only [Outcome.returns.injEq, Prod.mk.injEq] at hret
    obtain ⟨hr, hh⟩ := hret
    subst hr; subst hh
    have hfresh : (h.blocks ++ [s.map some ++ [some (0 : Byte)]])[h.blocks.length]?
        = some (s.map some ++ [some 0]) := by simp
    refine ⟨cellsAt_grow h p _ _ hlt, ?_, ⟨h.blocks.length, 0⟩, rfl, ?_, ?_, ?_⟩
    · intro b hb
      exact List.getElem?_append_left hb
    · show h.blocks.length ≠ p.block
      omega
    · intro i hi byte
      have hfit : i + 1 ≤ (s.map some ++ [some (0 : Byte)]).length := by simp; omega
      simp only [Heap.store, Heap.writeBytes, hfresh, writeCells, List.length_singleton,
        if_pos hfit]
      rfl
    · intro i byte h2 hst
      simp only [Heap.store, Heap.writeBytes, hfresh] at hst
      cases hw : writeCells (s.map some ++ [some (0 : Byte)]) i [byte] with
      | none => rw [hw] at hst; cases hst
      | some blk1 =>
        rw [hw] at hst
        simp only [Outcome.returns.injEq] at hst
        subst hst
        have hne : h.blocks.length ≠ p.block := by omega
        have hsame : Heap.cellsAt
            { blocks := (h.blocks ++ [s.map some ++ [some (0 : Byte)]]).set h.blocks.length blk1,
              avail := h.avail - (s.length + 1) } p = h.cellsAt p := by
          simp only [Heap.cellsAt]
          rw [List.getElem?_set_ne hne, List.getElem?_append_left hlt]
        exact ⟨hsame, by simp only [Heap.readString, hsame]⟩
  · rw [hrun, if_neg ha] at hret
    cases hret

/-- C6 at `sampleHeap 10`: the hypotheses hold there, and so does the
conclusion. -/
theorem MakeStringCopy_input_unchanged_witness :
    (sampleHeap 10).cellsAt samplePtr = sampleString.map some ++ some 0 :: [some 7] ∧
    (0 : Byte) ∉ sampleString ∧
    (sampleString.length + 1 ≤ (sampleHeap 10).avail →
      (MakeStringCopy (sampleHeap 10) (some samplePtr)).returned = true) ∧
    ∀ r h1, MakeStringCopy (sampleHeap 10) (some samplePtr) = Outcome.returns (r, h1) →
      h1.cellsAt samplePtr = (sampleHeap 10).cellsAt samplePtr ∧
      (∀ b, b < (sampleHeap 10).blocks.length → h1.blocks[b]? = (sampleHeap 10).blocks[b]?) ∧
      ∃ q, r = some q ∧ q.block ≠ samplePtr.block ∧
        (∀ i, i < sampleString.length + 1 → ∀ byte : Byte,
          (h1.store (some ⟨q.block, i⟩) byte).returned = true) ∧
        ∀ i (byte : Byte) h2, h1.store (some ⟨q.block, i⟩) byte = Outcome.returns h2 →
          h2.cellsAt samplePtr = (sampleHeap 10).cellsAt samplePtr ∧
          h2.readString (some samplePtr) = (sampleHeap 10).readString (some samplePtr) :=
  ⟨by decide, by decide,
    MakeStringCopy_input_unchanged (sampleHeap 10) samplePtr sampleString [some 7]
      (by decide) (by decide)⟩

/-- C8: for every pointer to a null-terminated string whose allocation fails,
`malloc` gives the null pointer, `MakeStringCopy` goes on to `strcpy` with that
null destination, and the call crashes on the null write: it returns neither a
null pointer nor any other value. A call on a null-terminated string that does
not return is a call whose allocation failed, and the call on the null pointer
returns. -/
theorem MakeStringCopy_alloc_failure (h : Heap) (p : Ptr) (s : List Byte) (rest : List Cell)
    (hc : h.cellsAt p = s.map some ++ some 0 :: rest) (h0 : (0 : Byte) ∉ s) :
    (h.avail < s.length + 1 →
      strlen h (some p) = Outcome.returns s.length ∧
      malloc h (s.length + 1) = (none, h) ∧
      strcpy h none (some p) = Outcome.crash Fault.nullDeref ∧
      MakeStringCopy h (some p)
        = (strcpy h none (some p)).andThen (fun h2 => Outcome.returns (none, h2)) ∧
      MakeStringCopy h (some p) = Outcome.crash Fault.nullDeref ∧
      (∀ v, MakeStringCopy h (some p) ≠ Outcome.returns v)) ∧
    ((MakeStringCopy h (some p)).returned = false → h.avail < s.length + 1) ∧
    (MakeStringCopy h none).returned = true := by
  have hrun := MakeStringCopy_eq h p s rest hc h0
  have hscan : scanString (h.cellsAt p) = Outcome.returns s := by
    rw [hc]; exact scanString_terminated s rest h0
  refine ⟨?_, ?_, rfl⟩
  · intro ha
    have hna : ¬ (s.length + 1 ≤ h.avail) := by omega
    rw [if_neg hna] at hrun
    refine ⟨?_, ?_, rfl, ?_, hrun, ?_⟩
    · simp [strlen, Heap.readString, hscan, Outcome.andThen]
    · simp [malloc, hna]
    · rw [hrun]; rfl
    · intro v hv
      rw [hrun] at hv
      cases hv
  · intro hnr
    by_contra hge
    have ha : s.length + 1 ≤ h.avail := by omega
    rw [hrun, if_pos ha] at hnr
    cases hnr

/-- C8 at `sampleHeap 2`, whose allocator has two bytes left for a string that
needs three: the hypotheses hold there, and so does the conclusion. -/
theorem MakeStringCopy_alloc_failure_witness :
    (sampleHeap 2).cellsAt samplePtr = sampleString.map some ++ some 0 :: [some 7] ∧
    (0 : Byte) ∉ sampleString ∧
    (sampleHeap 2).avail < sampleString.length + 1 ∧
    ((sampleHeap 2).avail < sampleString.length + 1 →
      strlen (sampleHeap 2) (some samplePtr) = Outcome.returns sampleString.length ∧
      malloc (sampleHeap 2) (sampleString.length + 1) = (none, sampleHeap 2) ∧
      strcpy (sampleHeap 2) none (some samplePtr) = Outcome.crash Fault.nullDeref ∧
      MakeStringCopy (sampleHeap 2) (some samplePtr)
        = (strcpy (sampleHeap 2) none (some samplePtr)).andThen
            (fun h2 => Outcome.returns (none, h2)) ∧
      MakeStringCopy (sampleHeap 2) (some samplePtr) = Outcome.crash Fault.nullDeref ∧
      (∀ v, MakeStringCopy (sampleHeap 2) (some samplePtr) ≠ Outcome.returns v)) ∧
    ((MakeStringCopy (sampleHeap 2) (some samplePtr)).returned = false →
      (sampleHeap 2).avail < sampleString.length + 1) ∧
    (MakeStringCopy (sampleHeap 2) none).returned = true :=
  ⟨by decide, by decide, by decide,
    MakeStringCopy_alloc_failure (sampleHeap 2) samplePtr sampleString [some 7]
      (by decide) (by decide)⟩

/-- C3: a default-constructed `TrackerResult` has the row-major 3x3 identity as
`mRotationMatrix` (entries 0, 4 and 8 are 1.0, the other six 0.0), `mTranslation`
equal to (0, 0, 0), `mStatus` equal to `NOT_TRACKED` and `mType` equal to
`UNDEFINED`. -/
theorem TrackerResult_default_pose :
    TrackerResult.defaultCtor.mRotationMatrix.elems
      = [Double.one, Double.zero, Double.zero,
         Double.zero, Double.one, Double.zero,
         Double.zero, Double.zero, Double.one] ∧
    (∀ i j : Fin 3, TrackerResult.defaultCtor.mRotationMatrix.get? (3 * i.val + j.val)
      = some (if i = j then Double.one else Double.zero)) ∧
    (∀ k : Fin 9, TrackerResult.defaultCtor.mRotationMatrix.get? k.val
      = some (if k.val = 0 ∨ k.val = 4 ∨ k.val = 8 then Double.one else Double.zero)) ∧
    Double.one.toRat = some 1 ∧
    Double.zero.toRat = some 0 ∧
    TrackerResult.defaultCtor.mTranslation.elems = [Double.zero, Double.zero, Double.zero] ∧
    TrackerResult.defaultCtor.mStatus = TargetStatus.NOT_TRACKED ∧
    TrackerResult.defaultCtor.mType = TargetType.UNDEFINED := by
  refine ⟨rfl, by decide, by decide, ?_, ?_, rfl, rfl, rfl⟩
  · have h : ((1023 : Fin 2048) : Nat) = 1023 := rfl
    simp only [Double.toRat, Double.one, h]
    norm_num
  · simp [Double.toRat, Double.zero]

/-- C4 as stated fails: `TargetInfo` cannot be constructed with no arguments,
because its member `mDimensions` has no initializer and `Dimensions` (like
`Vec3`) declares only a constructor that takes arguments. -/
theorem TargetInfo_no_default_ctor :
    ¬ (defaultConstructible "TargetInfo" = true) ∧
    defaultConstructible "Dimensions" = false ∧
    defaultConstructible "Vec3" = false := by
  decide

/-- C4, amended: every `TargetInfo` built by aggregate initialization from a
name, dimensions and a type, with the flags left to their default member
initializers, has `mIgnore = false` and `mStatic = false` and holds the three
given members. -/
theorem TargetInfo_aggregate_flags (name : CharPtr) (dimensions : Dimensions)
    (type : TargetType) :
    (TargetInfo.aggregateInit name dimensions type).mIgnore = false ∧
    (TargetInfo.aggregateInit name dimensions type).mStatic = false ∧
    (TargetInfo.aggregateInit name dimensions type).mTargetName = name ∧
    (TargetInfo.aggregateInit name dimensions type).mDimensions = dimensions ∧
    (TargetInfo.aggregateInit name dimensions type).mType = type :=
  ⟨rfl, rfl, rfl, rfl, rfl⟩

/-- C5: for all six component values, `Dimensions(Vec3(a,b,c), Vec3(d,e,f))`
has `mMin` = (a,b,c) and `mMax` = (d,e,f), component for component, whatever
the order of the two corners. -/
theorem Dimensions_ctor_stores (a b c d e f : Double) :
    (Dimensions.ctor (Vec3.ctor a b c) (Vec3.ctor d e f)).mMin = { X := a, Y := b, Z := c } ∧
    (Dimensions.ctor (Vec3.ctor a b c) (Vec3.ctor d e f)).mMax = { X := d, Y := e, Z := f } ∧
    (Dimensions.ctor (Vec3.ctor a b c) (Vec3.ctor d e f)).mMin.X = a ∧
    (Dimensions.ctor (Vec3.ctor a b c) (Vec3.ctor d e f)).mMin.Y = b ∧
    (Dimensions.ctor (Vec3.ctor a b c) (Vec3.ctor d e f)).mMin.Z = c ∧
    (Dimensions.ctor (Vec3.ctor a b c) (Vec3.ctor d e f)).mMax.X = d ∧
    (Dimensions.ctor (Vec3.ctor a b c) (Vec3.ctor d e f)).mMax.Y = e ∧
    (Dimensions.ctor (Vec3.ctor a b c) (Vec3.ctor d e f)).mMax.Z = f :=
  ⟨rfl, rfl, rfl, rfl, rfl, rfl, rfl, rfl⟩

/-- C7: every `Calibration` holds exactly 2 resolution entries, 2 focal-length
entries, 2 principal-point entries and 5 distortion coefficients, and a
position of each array is valid exactly when it is below that length. -/
theorem Calibration_array_sizes (c : Calibration) :
    c.mResolution.elems.length = 2 ∧
    c.mFocalLength.elems.length = 2 ∧
    c.mPrincipalPoint.elems.length = 2 ∧
    c.mDistortion.elems.length = 5 ∧
    (∀ i, (c.mResolution.get? i).isSome = true ↔ i < 2) ∧
    (∀ i, (c.mFocalLength.get? i).isSome = true ↔ i < 2) ∧
    (∀ i, (c.mPrincipalPoint.get? i).isSome = true ↔ i < 2) ∧
    (∀ i, (c.mDistortion.get? i).isSome = true ↔ i < 5) := by
  have key : ∀ {α : Type} {n : Nat} (a : CArray α n) (i : Nat),
      (a.get? i).isSome = true ↔ i < n := by
    intro α n a i
    have hsz := a.size_eq
    simp only [CArray.get?]
    by_cases hi : i < a.elems.length
    · simp only [List.getElem?_eq_getElem hi, Option.isSome_some, true_iff]
      omega
    · simp only [List.getElem?_eq_none_iff.mpr (Nat.le_of_not_lt hi), Option.isSome_none,
        Bool.false_eq_true, false_iff]
      omega
  exact ⟨c.mResolution.size_eq, c.mFocalLength.size_eq, c.mPrincipalPoint.size_eq,
    c.mDistortion.size_eq, key _, key _, key _, key _⟩

/-- C10: a default-constructed `TrackerResult` has a null `mTargetName` and
`mFrameID` 0; the frame identifier of every `TrackerResult` lies in 0..65535,
and assigning a frame number stores it modulo 2^16 (unchanged when it is at
most 65535). -/
theorem TrackerResult_frame_id :
    TrackerResult.defaultCtor.mTargetName = none ∧
    TrackerResult.defaultCtor.mFrameID.val = 0 ∧
    (∀ r : TrackerResult, r.mFrameID.val ≤ 65535) ∧
    (∀ (r : TrackerResult) (n : Nat), (r.setFrameID n).mFrameID.val = n % 2 ^ 16) ∧
    (∀ (r : TrackerResult) (n : Nat), n ≤ 65535 → (r.setFrameID n).mFrameID.val = n) ∧
    (TrackerResult.defaultCtor.setFrameID 65536).mFrameID.val = 0 ∧
    (TrackerResult.defaultCtor.setFrameID 70000).mFrameID.val = 4464 := by
  refine ⟨rfl, rfl, ?_, ?_, ?_, rfl, rfl⟩
  · intro r
    have := r.mFrameID.isLt
    omega
  · intro r n
    rfl
  · intro r n hn
    show n % 65536 = n
    omega

end HoloAssist
